import Mathlib

/-!
Verification development for a minimal TCP request/response server
(`src/service.rs`, `src/main.rs`).  The byte stream is modelled as
`List Nat` (byte values), decoded text as `List Nat` (Unicode code
points).  All definitions are shallow embeddings of the Rust source.
-/

/-- Code points of a string literal, used to write concrete inputs. -/
def chars (s : String) : List Nat := s.data.map Char.toNat

/-- Whether a byte is a UTF-8 continuation byte (`0x80..=0xBF`). -/
def isCont (b : Nat) : Bool := 128 ≤ b && b ≤ 191

/-- Model of `String::from_utf8` (service.rs line 145): strict UTF-8
decoding of a byte list into a list of Unicode scalar values, rejecting
overlong forms, surrogates and values above `0x10FFFF`; `none` models the
`Err` case. -/
def utf8Decode : List Nat → Option (List Nat)
  | [] => some []
  | b :: rest =>
    if b ≤ 127 then
      (utf8Decode rest).map (b :: ·)
    else if 194 ≤ b && b ≤ 223 then
      match rest with
      | b2 :: rest2 =>
        if isCont b2 then
          (utf8Decode rest2).map (((b - 192) * 64 + (b2 - 128)) :: ·)
        else none
      | [] => none
    else if 224 ≤ b && b ≤ 239 then
      match rest with
      | b2 :: b3 :: rest3 =>
        if (if b = 224 then 160 ≤ b2 && b2 ≤ 191
            else if b = 237 then 128 ≤ b2 && b2 ≤ 159
            else isCont b2) && isCont b3 then
          (utf8Decode rest3).map
            (((b - 224) * 4096 + (b2 - 128) * 64 + (b3 - 128)) :: ·)
        else none
      | _ => none
    else if 240 ≤ b && b ≤ 244 then
      match rest with
      | b2 :: b3 :: b4 :: rest4 =>
        if (if b = 240 then 144 ≤ b2 && b2 ≤ 191
            else if b = 244 then 128 ≤ b2 && b2 ≤ 143
            else isCont b2) && isCont b3 && isCont b4 then
          (utf8Decode rest4).map
            (((b - 240) * 262144 + (b2 - 128) * 4096 + (b3 - 128) * 64 + (b4 - 128)) :: ·)
        else none
      | _ => none
    else none

/-- The header/body separator `"\r\n\r\n"` as code points. -/
def sepChars : List Nat := [13, 10, 13, 10]

/-- Model of Rust `str::split("\r\n\r\n")` (service.rs line 150): split on
leftmost non-overlapping occurrences of the separator, keeping empty
segments. -/
def splitOnSep : List Nat → List (List Nat)
  | 13 :: 10 :: 13 :: 10 :: rest => [] :: splitOnSep rest
  | c :: rest =>
    match splitOnSep rest with
    | [] => [[c]]
    | seg :: segs => (c :: seg) :: segs
  | [] => [[]]

/-- Model of `req.split("\r\n\r\n").nth(1)` (service.rs line 150): the
framer's extracted payload. -/
def frame (s : List Nat) : Option (List Nat) := (splitOnSep s)[1]?

/-- Whether the separator occurs starting at the head of the list. -/
def startsWithSep : List Nat → Bool
  | 13 :: 10 :: 13 :: 10 :: _ => true
  | _ => false

/-- Whether `"\r\n\r\n"` occurs anywhere in the text. -/
def containsSep : List Nat → Bool
  | [] => false
  | c :: rest => startsWithSep (c :: rest) || containsSep rest

/-- JSON whitespace. -/
def wsp (c : Nat) : Bool := c = 32 || c = 9 || c = 10 || c = 13

/-- Skip leading JSON whitespace. -/
def skipWs : List Nat → List Nat
  | [] => []
  | c :: rest => if wsp c then skipWs rest else c :: rest

/-- JSON values as produced by `serde_json` (the model of
`serde_json::Value`).  A number is kept as its source lexeme: the server
core never inspects numeric values. -/
inductive Json where
  | null
  | bool (b : Bool)
  | num (lexeme : List Nat)
  | str (s : List Nat)
  | arr (items : List Json)
  | obj (entries : List (List Nat × Json))

/-- Value of a hex digit, if any. -/
def hexVal (c : Nat) : Option Nat :=
  if 48 ≤ c && c ≤ 57 then some (c - 48)
  else if 97 ≤ c && c ≤ 102 then some (c - 87)
  else if 65 ≤ c && c ≤ 70 then some (c - 55)
  else none

/-- Value of a four-hex-digit escape, if any. -/
def hex4 (a b c d : Nat) : Option Nat :=
  match hexVal a, hexVal b, hexVal c, hexVal d with
  | some x, some y, some z, some w => some (x * 4096 + y * 256 + z * 16 + w)
  | _, _, _, _ => none

/-- Single-character JSON escapes. -/
def escCode (e : Nat) : Option Nat :=
  if e = 34 then some 34
  else if e = 92 then some 92
  else if e = 47 then some 47
  else if e = 98 then some 8
  else if e = 102 then some 12
  else if e = 110 then some 10
  else if e = 114 then some 13
  else if e = 116 then some 9
  else none

/-- Parse the remainder of a JSON string after its opening quote,
returning the decoded code points and the rest of the input.  Handles
escapes including surrogate pairs, and rejects raw control characters
and lone surrogates, as `serde_json` does. -/
def parseStringRest : List Nat → Except String (List Nat × List Nat)
  | [] => .error "unterminated string"
  | 34 :: rest => .ok ([], rest)
  | 92 :: 117 :: h1 :: h2 :: h3 :: h4 :: rest =>
    match hex4 h1 h2 h3 h4 with
    | none => .error "invalid hex escape"
    | some n =>
      if 55296 ≤ n ∧ n ≤ 56319 then
        match rest with
        | 92 :: 117 :: g1 :: g2 :: g3 :: g4 :: rest2 =>
          match hex4 g1 g2 g3 g4 with
          | none => .error "invalid hex escape"
          | some m =>
            if 56320 ≤ m ∧ m ≤ 57343 then
              (parseStringRest rest2).map
                (fun p => ((65536 + (n - 55296) * 1024 + (m - 56320)) :: p.1, p.2))
            else .error "lone leading surrogate"
        | _ => .error "lone leading surrogate"
      else if 56320 ≤ n ∧ n ≤ 57343 then .error "lone trailing surrogate"
      else (parseStringRest rest).map (fun p => (n :: p.1, p.2))
  | 92 :: e :: rest =>
    match escCode e with
    | some c => (parseStringRest rest).map (fun p => (c :: p.1, p.2))
    | none => .error "invalid escape"
  | c :: rest =>
    if c < 32 then .error "control character in string"
    else (parseStringRest rest).map (fun p => (c :: p.1, p.2))

/-- Decimal digit test. -/
def isDigit (c : Nat) : Bool := 48 ≤ c && c ≤ 57

/-- Mandatory digit run after an exponent marker. -/
def expDigits (pre : List Nat) (s : List Nat) : Except String (List Nat × List Nat) :=
  let ds := s.takeWhile isDigit
  if ds = [] then .error "invalid number"
  else .ok (pre ++ ds, s.dropWhile isDigit)

/-- Optional exponent part of a JSON number. -/
def numExp : List Nat → Except String (List Nat × List Nat)
  | 101 :: 43 :: rest => expDigits [101, 43] rest
  | 101 :: 45 :: rest => expDigits [101, 45] rest
  | 101 :: rest => expDigits [101] rest
  | 69 :: 43 :: rest => expDigits [69, 43] rest
  | 69 :: 45 :: rest => expDigits [69, 45] rest
  | 69 :: rest => expDigits [69] rest
  | s => .ok ([], s)

/-- Optional fraction part of a JSON number, then exponent. -/
def numFrac : List Nat → Except String (List Nat × List Nat)
  | 46 :: rest =>
    let ds := rest.takeWhile isDigit
    if ds = [] then .error "invalid number"
    else
      match numExp (rest.dropWhile isDigit) with
      | .ok (e, r) => .ok (46 :: (ds ++ e), r)
      | .error msg => .error msg
  | s => numExp s

/-- Integer part of a JSON number (no leading zeros), then fraction. -/
def numIntTail : List Nat → Except String (List Nat × List Nat)
  | 48 :: rest => (numFrac rest).map (fun p => (48 :: p.1, p.2))
  | c :: rest =>
    if 49 ≤ c && c ≤ 57 then
      (numFrac (rest.dropWhile isDigit)).map
        (fun p => (c :: (rest.takeWhile isDigit ++ p.1), p.2))
    else .error "invalid number"
  | [] => .error "invalid number"

/-- A JSON number lexeme: optional minus sign, then integer part. -/
def parseNumber (s : List Nat) : Except String (List Nat × List Nat) :=
  match s with
  | 45 :: rest => (numIntTail rest).map (fun p => (45 :: p.1, p.2))
  | _ => numIntTail s

/-- Check a keyword tail such as `ull` after `n`. -/
def matchLit (lit : List Nat) (j : Json) (s : List Nat) : Except String (Json × List Nat) :=
  if lit.isPrefixOf s then .ok (j, s.drop lit.length) else .error "invalid literal"

mutual

/-- Recursive-descent JSON value parser (the model of `serde_json`'s
text-level grammar).  The fuel argument only bounds nesting; the top
entry point passes more fuel than any input can consume. -/
def parseJsonValue : Nat → List Nat → Except String (Json × List Nat)
  | 0, _ => .error "recursion limit exceeded"
  | fuel + 1, s =>
    match skipWs s with
    | [] => .error "eof while parsing value"
    | 110 :: rest => matchLit [117, 108, 108] Json.null rest
    | 116 :: rest => matchLit [114, 117, 101] (Json.bool true) rest
    | 102 :: rest => matchLit [97, 108, 115, 101] (Json.bool false) rest
    | 34 :: rest => (parseStringRest rest).map (fun p => (Json.str p.1, p.2))
    | 91 :: rest =>
      match skipWs rest with
      | 93 :: r2 => .ok (Json.arr [], r2)
      | r2 => (parseJsonArray fuel r2).map (fun p => (Json.arr p.1, p.2))
    | 123 :: rest =>
      match skipWs rest with
      | 125 :: r2 => .ok (Json.obj [], r2)
      | r2 => (parseJsonObject fuel r2).map (fun p => (Json.obj p.1, p.2))
    | c :: rest => (parseNumber (c :: rest)).map (fun p => (Json.num p.1, p.2))

/-- One-or-more comma-separated array items followed by `]`. -/
def parseJsonArray : Nat → List Nat → Except String (List Json × List Nat)
  | 0, _ => .error "recursion limit exceeded"
  | fuel + 1, s =>
    match parseJsonValue fuel s with
    | .error e => .error e
    | .ok (v, r) =>
      match skipWs r with
      | 44 :: r2 => (parseJsonArray fuel r2).map (fun p => (v :: p.1, p.2))
      | 93 :: r2 => .ok ([v], r2)
      | _ => .error "expected comma or bracket"

/-- One-or-more `key : value` object entries followed by a closing brace. -/
def parseJsonObject : Nat → List Nat → Except String (List (List Nat × Json) × List Nat)
  | 0, _ => .error "recursion limit exceeded"
  | fuel + 1, s =>
    match skipWs s with
    | 34 :: r =>
      match parseStringRest r with
      | .error e => .error e
      | .ok (k, r2) =>
        match skipWs r2 with
        | 58 :: r3 =>
          match parseJsonValue fuel r3 with
          | .error e => .error e
          | .ok (v, r4) =>
            match skipWs r4 with
            | 44 :: r5 => (parseJsonObject fuel r5).map (fun p => ((k, v) :: p.1, p.2))
            | 125 :: r5 => .ok ([(k, v)], r5)
            | _ => .error "expected comma or brace"
        | _ => .error "expected colon"
    | _ => .error "key must be a string"

end

/-- Parse a complete JSON document: one value plus trailing whitespace. -/
def parseJsonTop (s : List Nat) : Except String Json :=
  match parseJsonValue (s.length + 1) s with
  | .error e => .error e
  | .ok (j, rest) => if skipWs rest = [] then .ok j else .error "trailing characters"

/-- The decoded structured call (service.rs lines 71-76): `method` is a
required string field, `data` defaults to JSON null when absent
(`#[serde(default)]`). -/
structure Request where
  method : List Nat
  data : Json

/-- The field loop of serde's derived `Deserialize` for `Request`:
walks the object entries accumulating `method` and `data`, rejecting
duplicates, ignoring unknown fields, then applies the default for
`data` and requires `method`. -/
def reqGo : List (List Nat × Json) → Option (List Nat) → Option Json → Except String Request
  | [], none, _ => .error "missing field method"
  | [], some m, d => .ok ⟨m, d.getD Json.null⟩
  | (k, v) :: rest, m, d =>
    if k = chars "method" then
      match m with
      | some _ => .error "duplicate field method"
      | none =>
        match v with
        | Json.str s => reqGo rest (some s) d
        | _ => .error "invalid type for method"
    else if k = chars "data" then
      match d with
      | some _ => .error "duplicate field data"
      | none => reqGo rest m (some v)
    else reqGo rest m d

/-- Deserialize a JSON value into a `Request` (serde's derived impl). -/
def requestFromJson : Json → Except String Request
  | Json.obj kvs => reqGo kvs none none
  | _ => .error "invalid type: expected a map"

/-- Model of `parse_request` (service.rs lines 78-80):
`serde_json::from_str(data).context("Invalid Request")`. -/
def parse_request (s : List Nat) : Except String Request :=
  match parseJsonTop s with
  | .error e => .error ("Invalid Request: " ++ e)
  | .ok j =>
    match requestFromJson j with
    | .error e => .error ("Invalid Request: " ++ e)
    | .ok r => .ok r

/-- The outbound result (service.rs lines 13-16): a fixed status line and
a textual body. -/
structure Response where
  status : List Nat
  body : List Nat
  deriving DecidableEq

namespace status

/-- service.rs lines 27-30. -/
def OK : Response := ⟨chars "200 OK", []⟩

/-- service.rs lines 32-35. -/
def BAD_REQUEST : Response := ⟨chars "400 Bad Request", []⟩

/-- service.rs lines 37-40. -/
def INTERNAL_SERVER_ERROR : Response := ⟨chars "500 Internal Server Error", []⟩

end status

/-- `impl IntoResponse for ()` (service.rs lines 47-54). -/
def intoResponseUnit : Unit → Response := fun _ => ⟨chars "200 OK", chars "\x7b\x7d"⟩

/-- Low hex digit as used by `serde_json`'s escaping table. -/
def hexDigitLower (n : Nat) : Nat := if n < 10 then 48 + n else 87 + n

/-- `serde_json`'s string escaping: quote, backslash, short control
escapes, and `\u00xx` for other control characters. -/
def escapeJson : List Nat → List Nat
  | [] => []
  | c :: rest =>
    (if c = 34 then [92, 34]
     else if c = 92 then [92, 92]
     else if c = 8 then [92, 98]
     else if c = 9 then [92, 116]
     else if c = 10 then [92, 110]
     else if c = 12 then [92, 102]
     else if c = 13 then [92, 114]
     else if c < 32 then [92, 117, 48, 48, hexDigitLower (c / 16), hexDigitLower (c % 16)]
     else [c]) ++ escapeJson rest

/-- `serde_json::to_string` of a Rust `String`: a quoted, escaped JSON
string; this instance never fails. -/
def jsonEncString (s : List Nat) : List Nat := 34 :: (escapeJson s ++ [34])

/-- `impl IntoResponse for Result<T, E>` (service.rs lines 56-69),
parametric in the `serde_json::to_string` instance for `T` (`ser`, which
may fail) and the `ToString` instance for `E` (`msg`).  The `Ok` arm of
the source calls `.unwrap()` on the serialization result, so a failed
serialization panics: the `none` result models that panic. -/
def intoResponseResult {α ε : Type} (ser : α → Option (List Nat)) (msg : ε → List Nat) :
    Except ε α → Option Response
  | .ok v => (ser v).map (fun s => ⟨chars "200 OK", s⟩)
  | .error e => some ⟨chars "500 Internal Server Error", msg e⟩

/-- The same impl instantiated at `Result<String, anyhow::Error>` (the
type `handle_with_timeout` in main.rs returns): serializing a `String`
never fails, so this instance is total. -/
def resultToResponse : Except (List Nat) (List Nat) → Response
  | .ok s => ⟨chars "200 OK", jsonEncString s⟩
  | .error e => ⟨chars "500 Internal Server Error", e⟩

/-- UTF-8 encoded size in bytes of one Unicode scalar value. -/
def utf8Size (c : Nat) : Nat :=
  if c < 128 then 1 else if c < 2048 then 2 else if c < 65536 then 3 else 4

/-- Model of Rust `String::len`: the byte count of the UTF-8 encoding. -/
def byteLength (s : List Nat) : Nat := (s.map utf8Size).sum

/-- Model of `response` (service.rs lines 161-173): the serialized wire
form of a `Response`, joining the formatted status line, the content-type
header, the content-length header (from `res.body.len()`), the blank
line and the body. -/
def response (res : Response) : List Nat :=
  (chars "HTTP/1.1 " ++ res.status ++ chars "\r\n")
    ++ chars "Content-Type: application/json\r\n"
    ++ (chars "Content-Length: " ++ chars (Nat.repr (byteLength res.body)) ++ chars "\r\n\r\n")
    ++ res.body

/-- The deadline in seconds passed to `tokio::time::timeout` (main.rs
line 24). -/
def timeoutSecs : Nat := 30

/-- Display of `tokio::time::error::Elapsed`, the message carried by the
`anyhow::Error` that `?` produces when the deadline passes. -/
def timeoutMsg : List Nat := chars "deadline has elapsed"

/-- Model of `handle_with_timeout` (main.rs lines 22-26).  Real time is
abstracted by the oracle `tmo`, which records whether the router future
for this request failed to complete within `timeoutSecs` seconds;
`router` gives the inner `rpc_router` result when it does complete.  On
timeout the `?` operator turns `Elapsed` into an `anyhow::Error`; on
completion the router's response body is wrapped in `anyhow::Ok`. -/
def handle_with_timeout (tmo : Request → Bool) (router : Request → Except (List Nat) (List Nat))
    (req : Request) : Except (List Nat) (List Nat) :=
  if tmo req then .error timeoutMsg
  else .ok (resultToResponse (router req)).body

/-- The handler as the connection loop sees it: `handle_with_timeout`
composed with its `IntoResponse` instance. -/
def servedHandler (tmo : Request → Bool) (router : Request → Except (List Nat) (List Nat))
    (req : Request) : Response :=
  resultToResponse (handle_with_timeout tmo router req)

/-- Model of `handle_connection` (service.rs lines 120-159).  The socket
is abstracted as the list of chunks that successive `read` calls yield;
the result collects the responses handed to `send_response`, in order,
together with the connection's final `anyhow::Result` (`.error` is the
propagated decode failure from `parse_request(body)?`).  An empty chunk
is a zero-length read: the loop breaks normally. -/
def handle_connection (handler : Request → Response) :
    List (List Nat) → List Response × Except String Unit
  | [] => ([], .ok ())
  | chunk :: rest =>
    if chunk = [] then ([], .ok ())
    else
      match utf8Decode chunk with
      | none =>
        (status.BAD_REQUEST :: (handle_connection handler rest).1,
         (handle_connection handler rest).2)
      | some text =>
        match frame text with
        | none =>
          (status.BAD_REQUEST :: (handle_connection handler rest).1,
           (handle_connection handler rest).2)
        | some body =>
          match parse_request body with
          | .error e => ([], .error e)
          | .ok req =>
            (handler req :: (handle_connection handler rest).1,
             (handle_connection handler rest).2)

/-- Model of the accept loop of `server_loop` (service.rs lines 108-117):
one independently handled connection per accepted socket, all sharing the
same handler; each connection's outcome is computed from its own chunk
stream alone, and a connection's error is only logged. -/
def server_loop (handler : Request → Response) (conns : List (List (List Nat))) :
    List (List Response × Except String Unit) :=
  conns.map (handle_connection handler)

/-- The size of the fixed read buffer `[0u8; 1024]` (service.rs line
130). -/
def readBufSize : Nat := 1024

/-- Model of the read loop's byte consumption: `socket.read(&mut data)`
delivers some `k` bytes of the pending stream but never more than the
buffer size, and only `data[..len]` is processed.  `chunksFrom pending
ks` is the chunk sequence produced by reads of sizes `ks`. -/
def chunksFrom : List Nat → List Nat → List (List Nat)
  | _, [] => []
  | pending, k :: ks =>
    pending.take (min k readBufSize) :: chunksFrom (pending.drop (min k readBufSize)) ks

/-! ### Helper lemmas about the framer -/

/-- A list without a carriage return is split into a single segment. -/
theorem splitOnSep_noCR (s : List Nat) (h : 13 ∉ s) : splitOnSep s = [s] := by
  induction s with
  | nil => rfl
  | cons c rest ih =>
    have hc : c ≠ 13 := by
      intro hh
      exact h (hh ▸ List.mem_cons_self c rest)
    have hr : 13 ∉ rest := fun hm => h (List.mem_cons_of_mem c hm)
    rw [splitOnSep.eq_def]
    split <;> simp_all

/-- Splitting past a CR-free preamble followed by the separator. -/
theorem splitOnSep_boundary (a t : List Nat) (h : 13 ∉ a) :
    splitOnSep (a ++ sepChars ++ t) = a :: splitOnSep t := by
  induction a with
  | nil => rfl
  | cons c a' ih =>
    have hc : c ≠ 13 := by
      intro hh
      exact h (hh ▸ List.mem_cons_self c a')
    have ha' : 13 ∉ a' := fun hm => h (List.mem_cons_of_mem c hm)
    have ihh := ih ha'
    rw [List.cons_append, List.cons_append, splitOnSep.eq_def]
    split <;> simp_all

/-- The split always yields at least one segment. -/
theorem splitOnSep_ne_nil (s : List Nat) : splitOnSep s ≠ [] := by
  rw [splitOnSep.eq_def]
  split
  · simp
  · split <;> simp
  · simp

/-- Without an occurrence of the separator the split is a singleton. -/
theorem splitOnSep_of_not_containsSep (s : List Nat) (h : containsSep s = false) :
    splitOnSep s = [s] := by
  induction s with
  | nil => rfl
  | cons c rest ih =>
    rw [containsSep] at h
    rw [Bool.or_eq_false_iff] at h
    have ihh := ih h.2
    have hs := h.1
    rw [splitOnSep.eq_def]
    split <;> simp_all [startsWithSep]

/-- The framer fails exactly when the text has no separator. -/
theorem frame_of_not_containsSep (s : List Nat) (h : containsSep s = false) : frame s = none := by
  rw [frame, splitOnSep_of_not_containsSep s h]
  rfl

/-- With one separator and CR-free sides, the payload is the whole
suffix. -/
theorem frame_boundary_noSecond (a b : List Nat) (ha : 13 ∉ a) (hb : 13 ∉ b) :
    frame (a ++ sepChars ++ b) = some b := by
  rw [frame, splitOnSep_boundary a b ha, splitOnSep_noCR b hb]
  rfl

/-- With two separators, the payload is only the middle segment. -/
theorem frame_boundary_second (a b t : List Nat) (ha : 13 ∉ a) (hb : 13 ∉ b) :
    frame (a ++ sepChars ++ (b ++ sepChars ++ t)) = some b := by
  rw [frame, splitOnSep_boundary a _ ha, splitOnSep_boundary b t hb]
  simp

/-- A framable text is nonempty. -/
theorem frame_some_ne_nil {text body : List Nat} (h : frame text = some body) : text ≠ [] := by
  intro hx
  subst hx
  exact Option.noConfusion h

/-! ### Helper lemmas about the connection loop -/

/-- Unfolding of the loop on a chunk that frames and decodes. -/
theorem handle_connection_parse_ok (handler : Request → Response)
    (chunk : List Nat) (rest : List (List Nat)) (text body : List Nat) (req : Request)
    (h1 : utf8Decode chunk = some text) (h2 : frame text = some body)
    (h3 : parse_request body = .ok req) :
    handle_connection handler (chunk :: rest)
      = (handler req :: (handle_connection handler rest).1,
         (handle_connection handler rest).2) := by
  have hne : chunk ≠ [] := by
    intro hx
    subst hx
    rw [show utf8Decode [] = some [] from rfl] at h1
    injection h1 with h1
    exact frame_some_ne_nil (h1 ▸ h2) rfl
  simp only [handle_connection, if_neg hne, h1, h2, h3]

/-- Unfolding of the loop on a chunk whose payload fails to decode: the
error propagates and nothing more is written. -/
theorem handle_connection_parse_err (handler : Request → Response)
    (chunk : List Nat) (rest : List (List Nat)) (text body : List Nat) (e : String)
    (h1 : utf8Decode chunk = some text) (h2 : frame text = some body)
    (h3 : parse_request body = .error e) :
    handle_connection handler (chunk :: rest) = ([], .error e) := by
  have hne : chunk ≠ [] := by
    intro hx
    subst hx
    rw [show utf8Decode [] = some [] from rfl] at h1
    injection h1 with h1
    exact frame_some_ne_nil (h1 ▸ h2) rfl
  simp only [handle_connection, if_neg hne, h1, h2, h3]

/-- Unfolding of the loop on a chunk that is not valid UTF-8. -/
theorem handle_connection_bad_utf8 (handler : Request → Response)
    (chunk : List Nat) (rest : List (List Nat)) (h1 : utf8Decode chunk = none) :
    handle_connection handler (chunk :: rest)
      = (status.BAD_REQUEST :: (handle_connection handler rest).1,
         (handle_connection handler rest).2) := by
  have hne : chunk ≠ [] := by
    intro hx
    subst hx
    exact Option.noConfusion h1
  simp only [handle_connection, if_neg hne, h1]

/-- Unfolding of the loop on a valid-text chunk with no separator. -/
theorem handle_connection_no_sep (handler : Request → Response)
    (chunk : List Nat) (rest : List (List Nat)) (text : List Nat)
    (hne : chunk ≠ []) (h1 : utf8Decode chunk = some text) (h2 : frame text = none) :
    handle_connection handler (chunk :: rest)
      = (status.BAD_REQUEST :: (handle_connection handler rest).1,
         (handle_connection handler rest).2) := by
  simp only [handle_connection, if_neg hne, h1, h2]

/-! ### Helper lemmas about the request deserializer and response statuses -/

/-- Once `method` is bound, the loop either fails or returns it. -/
theorem reqGo_method_set (kvs : List (List Nat × Json)) (m : List Nat) (d : Option Json)
    (r : Request) (h : reqGo kvs (some m) d = .ok r) : r.method = m := by
  induction kvs generalizing d with
  | nil =>
    simp only [reqGo] at h
    injection h with h
    rw [← h]
  | cons kv rest ih =>
    obtain ⟨k, v⟩ := kv
    by_cases hk : k = chars "method"
    · simp only [reqGo, if_pos hk] at h
      exact absurd h (by simp)
    · by_cases hd : k = chars "data"
      · simp only [reqGo, if_neg hk, if_pos hd] at h
        cases d with
        | some dv => exact absurd h (by simp)
        | none => exact ih (some v) h
      · simp only [reqGo, if_neg hk, if_neg hd] at h
        exact ih d h

theorem reqGo_method_mem (kvs : List (List Nat × Json)) (d : Option Json) (r : Request)
    (h : reqGo kvs none d = .ok r) : (chars "method", Json.str r.method) ∈ kvs := by
  induction kvs generalizing d with
  | nil => simp [reqGo] at h
  | cons kv rest ih =>
    obtain ⟨k, v⟩ := kv
    by_cases hk : k = chars "method"
    · simp only [reqGo, if_pos hk] at h
      cases v with
      | str s =>
        have hm := reqGo_method_set rest s d r h
        rw [hk, hm]
        exact List.mem_cons_self _ _
      | null => exact absurd h (by simp)
      | bool b => exact absurd h (by simp)
      | num l => exact absurd h (by simp)
      | arr xs => exact absurd h (by simp)
      | obj es => exact absurd h (by simp)
    · by_cases hd : k = chars "data"
      · simp only [reqGo, if_neg hk, if_pos hd] at h
        cases d with
        | some dv => exact absurd h (by simp)
        | none => exact List.mem_cons_of_mem _ (ih (some v) h)
      · simp only [reqGo, if_neg hk, if_neg hd] at h
        exact List.mem_cons_of_mem _ (ih d h)

theorem reqGo_data_default (kvs : List (List Nat × Json)) (m : Option (List Nat)) (r : Request)
    (h : reqGo kvs m none = .ok r) (hnd : ∀ v, (chars "data", v) ∉ kvs) :
    r.data = Json.null := by
  induction kvs generalizing m with
  | nil =>
    cases m with
    | none => simp [reqGo] at h
    | some mm =>
      simp only [reqGo] at h
      injection h with h
      rw [← h]
      rfl
  | cons kv rest ih =>
    obtain ⟨k, v⟩ := kv
    have hnd' : ∀ v, (chars "data", v) ∉ rest := fun w hw => hnd w (List.mem_cons_of_mem _ hw)
    by_cases hk : k = chars "method"
    · simp only [reqGo, if_pos hk] at h
      cases m with
      | some mm => exact absurd h (by simp)
      | none =>
        cases v with
        | str s => exact ih (some s) h hnd'
        | null => exact absurd h (by simp)
        | bool b => exact absurd h (by simp)
        | num l => exact absurd h (by simp)
        | arr xs => exact absurd h (by simp)
        | obj es => exact absurd h (by simp)
    · by_cases hd : k = chars "data"
      · subst hd
        exact absurd (List.mem_cons_self _ _) (hnd v)
      · simp only [reqGo, if_neg hk, if_neg hd] at h
        exact ih m h hnd'

theorem reqGo_missing_method (kvs : List (List Nat × Json)) (d : Option Json)
    (hnm : ∀ v, (chars "method", v) ∉ kvs) :
    ∃ msg, reqGo kvs none d = .error msg := by
  induction kvs generalizing d with
  | nil => exact ⟨"missing field method", rfl⟩
  | cons kv rest ih =>
    obtain ⟨k, v⟩ := kv
    have hnm' : ∀ v, (chars "method", v) ∉ rest := fun w hw => hnm w (List.mem_cons_of_mem _ hw)
    by_cases hk : k = chars "method"
    · subst hk
      exact absurd (List.mem_cons_self _ _) (hnm v)
    · by_cases hd : k = chars "data"
      · cases d with
        | some dv => exact ⟨"duplicate field data", by simp [reqGo, if_neg hk, if_pos hd]⟩
        | none =>
          obtain ⟨msg, hmsg⟩ := ih (some v) hnm'
          exact ⟨msg, by simp [reqGo, if_neg hk, if_pos hd, hmsg]⟩
      · obtain ⟨msg, hmsg⟩ := ih d hnm'
        exact ⟨msg, by simp [reqGo, if_neg hk, if_neg hd, hmsg]⟩

theorem resultToResponse_status (x : Except (List Nat) (List Nat)) :
    (resultToResponse x).status = chars "200 OK" ∨
    (resultToResponse x).status = chars "500 Internal Server Error" := by
  cases x with
  | ok s => exact Or.inl rfl
  | error e => exact Or.inr rfl

theorem handle_connection_statuses (handler : Request → Response)
    (hh : ∀ req, (handler req).status = chars "200 OK" ∨
      (handler req).status = chars "500 Internal Server Error")
    (chunks : List (List Nat)) (r : Response)
    (hr : r ∈ (handle_connection handler chunks).1) :
    r.status = chars "200 OK" ∨ r.status = chars "400 Bad Request" ∨
      r.status = chars "500 Internal Server Error" := by
  induction chunks with
  | nil => simp [handle_connection] at hr
  | cons chunk rest ih =>
    simp only [handle_connection] at hr
    split at hr
    · simp at hr
    · split at hr
      · simp only [List.mem_cons] at hr
        rcases hr with hr | hr
        · subst hr
          exact Or.inr (Or.inl rfl)
        · exact ih hr
      · split at hr
        · simp only [List.mem_cons] at hr
          rcases hr with hr | hr
          · subst hr
            exact Or.inr (Or.inl rfl)
          · exact ih hr
        · split at hr
          · simp at hr
          · simp only [List.mem_cons] at hr
            rcases hr with hr | hr
            · subst hr
              rcases hh _ with hx | hx
              · exact Or.inl hx
              · exact Or.inr (Or.inr hx)
            · exact ih hr

/-! ### Claims -/

/-- C1, counterexample: for the chunk `"X\r\n\r\nB\r\n\r\nC"`, in which the
bytes after the first separator contain another separator, the framer
extracts only `"B"`, not the entire suffix `"B\r\n\r\nC"` that the claim
says it extracts. -/
theorem C1_counterexample :
    frame (chars "X\r\n\r\nB\r\n\r\nC") = some (chars "B") ∧
    frame (chars "X\r\n\r\nB\r\n\r\nC") ≠ some (chars "B\r\n\r\nC") := by
  constructor
  · rfl
  · decide

/-- C1, amended: the framer extracts the segment strictly between the
first and second occurrences of `"\r\n\r\n"` (the second element of the
split); that segment equals the entire suffix after the first separator
only when the suffix contains no further separator. -/
theorem C1_payload_between_separators (pre mid suf : List Nat)
    (hpre : 13 ∉ pre) (hmid : 13 ∉ mid) :
    frame (pre ++ sepChars ++ (mid ++ sepChars ++ suf)) = some mid ∧
    frame (pre ++ sepChars ++ mid) = some mid :=
  ⟨frame_boundary_second pre mid suf hpre hmid, frame_boundary_noSecond pre mid hpre hmid⟩

/-- C1, witness: the amended theorem at `pre = "X"`, `mid = "B"`,
`suf = "C"`. -/
theorem C1_witness :
    (13 ∉ chars "X") ∧ (13 ∉ chars "B") ∧
    (frame (chars "X" ++ sepChars ++ (chars "B" ++ sepChars ++ chars "C")) = some (chars "B") ∧
     frame (chars "X" ++ sepChars ++ chars "B") = some (chars "B")) :=
  ⟨by decide, by decide,
   C1_payload_between_separators (chars "X") (chars "B") (chars "C") (by decide) (by decide)⟩

/-- C2, counterexample: with a serializer that fails on the success
payload, the `Ok` arm's `.unwrap()` panics — no response at all is
produced (modelled by `none`) — instead of degrading to an error
response as the claim requires. -/
theorem C2_counterexample :
    intoResponseResult (fun _ : Unit => (none : Option (List Nat))) (fun _ : Unit => [])
      (Except.ok ()) = none := rfl

/-- C2, amended: if serializing the success payload fails, the encoding
step panics (aborts the connection handler with no response) rather than
degrading to an error response. -/
theorem C2_serialization_failure_panics {α ε : Type} (ser : α → Option (List Nat))
    (msg : ε → List Nat) (v : α) (h : ser v = none) :
    intoResponseResult ser msg (Except.ok v) = none := by
  simp [intoResponseResult, h]

/-- C2, witness: the amended theorem at a concrete failing serializer. -/
theorem C2_witness :
    (fun _ : Unit => (none : Option (List Nat))) () = none ∧
    intoResponseResult (fun _ : Unit => (none : Option (List Nat))) (fun _ : Unit => [0])
      (Except.ok ()) = none :=
  ⟨rfl, C2_serialization_failure_panics (fun _ : Unit => none) (fun _ : Unit => [0]) () rfl⟩

/-- C3: a chunk that decodes and frames but whose payload fails
`parse_request` terminates the connection with the decode error
propagated and no response written for that request, and in the listener
loop only this connection's outcome carries the error — every other
connection's outcome is unchanged. -/
theorem C3_decode_failure_fatal (handler : Request → Response)
    (chunk text body : List Nat) (e : String) (rest : List (List Nat))
    (conns : List (List (List Nat)))
    (h1 : utf8Decode chunk = some text) (h2 : frame text = some body)
    (h3 : parse_request body = .error e) :
    handle_connection handler (chunk :: rest) = ([], .error e) ∧
    server_loop handler ((chunk :: rest) :: conns)
      = ([], .error e) :: server_loop handler conns := by
  have h := handle_connection_parse_err handler chunk rest text body e h1 h2 h3
  exact ⟨h, by simp [server_loop, h]⟩

/-- C3, witness: a concrete framed chunk with non-JSON payload kills the
connection with no response, while a second connection is unaffected. -/
theorem C3_witness :
    utf8Decode (chars "X\r\n\r\nnotjson") = some (chars "X\r\n\r\nnotjson") ∧
    frame (chars "X\r\n\r\nnotjson") = some (chars "notjson") ∧
    parse_request (chars "notjson") = .error "Invalid Request: invalid literal" ∧
    (handle_connection (servedHandler (fun _ => false) (fun _ => .ok []))
        [chars "X\r\n\r\nnotjson"]
      = ([], .error "Invalid Request: invalid literal") ∧
     server_loop (servedHandler (fun _ => false) (fun _ => .ok []))
        [[chars "X\r\n\r\nnotjson"], [[255]]]
      = [([], .error "Invalid Request: invalid literal"), ([status.BAD_REQUEST], .ok ())]) := by
  refine ⟨rfl, rfl, rfl, ?_⟩
  have h := C3_decode_failure_fatal (servedHandler (fun _ => false) (fun _ => .ok []))
    (chars "X\r\n\r\nnotjson") (chars "X\r\n\r\nnotjson") (chars "notjson")
    "Invalid Request: invalid literal" [] [[[255]]] rfl rfl rfl
  exact ⟨h.1, h.2.trans rfl⟩

/-- C4: a chunk that is not valid UTF-8, and a nonempty valid-text chunk
containing no separator, each produce exactly the 400 Bad Request
response with empty body, and the connection keeps processing the
remaining chunks. -/
theorem C4_framing_soft_failures (handler : Request → Response) (chunk : List Nat)
    (rest : List (List Nat)) :
    (utf8Decode chunk = none →
      handle_connection handler (chunk :: rest)
        = (status.BAD_REQUEST :: (handle_connection handler rest).1,
           (handle_connection handler rest).2)) ∧
    (∀ text, chunk ≠ [] → utf8Decode chunk = some text → containsSep text = false →
      handle_connection handler (chunk :: rest)
        = (status.BAD_REQUEST :: (handle_connection handler rest).1,
           (handle_connection handler rest).2)) ∧
    status.BAD_REQUEST = ⟨chars "400 Bad Request", []⟩ := by
  refine ⟨fun h1 => handle_connection_bad_utf8 handler chunk rest h1,
    fun text hne h1 h2 => ?_, rfl⟩
  exact handle_connection_no_sep handler chunk rest text hne h1
    (frame_of_not_containsSep text h2)

/-- C4, witness: an invalid byte and a separator-free text chunk each get
a 400 response and the loop continues. -/
theorem C4_witness :
    (utf8Decode [255] = none ∧
     handle_connection (fun _ => status.OK) [[255]]
       = (status.BAD_REQUEST :: (handle_connection (fun _ => status.OK) []).1,
          (handle_connection (fun _ => status.OK) []).2)) ∧
    (chars "hello" ≠ [] ∧ utf8Decode (chars "hello") = some (chars "hello") ∧
     containsSep (chars "hello") = false ∧
     handle_connection (fun _ => status.OK) [chars "hello"]
       = (status.BAD_REQUEST :: (handle_connection (fun _ => status.OK) []).1,
          (handle_connection (fun _ => status.OK) []).2)) :=
  ⟨⟨rfl, (C4_framing_soft_failures (fun _ => status.OK) [255] []).1 rfl⟩,
   ⟨by decide, rfl, rfl,
    (C4_framing_soft_failures (fun _ => status.OK) (chars "hello") []).2.1
      (chars "hello") (by decide) rfl rfl⟩⟩

/-- C5: when the timeout oracle reports that the handler for a decoded
request missed the deadline, the connection writes the 500 Internal
Server Error response with the timeout body "deadline has elapsed" and
then continues with the remaining chunks as usual. -/
theorem C5_timeout_response (tmo : Request → Bool)
    (router : Request → Except (List Nat) (List Nat))
    (chunk text body : List Nat) (req : Request) (rest : List (List Nat))
    (h1 : utf8Decode chunk = some text) (h2 : frame text = some body)
    (h3 : parse_request body = .ok req) (h4 : tmo req = true) :
    handle_connection (servedHandler tmo router) (chunk :: rest)
      = (⟨chars "500 Internal Server Error", timeoutMsg⟩
           :: (handle_connection (servedHandler tmo router) rest).1,
         (handle_connection (servedHandler tmo router) rest).2) := by
  have h := handle_connection_parse_ok (servedHandler tmo router) chunk rest text body req
    h1 h2 h3
  rw [h]
  simp [servedHandler, handle_with_timeout, h4, resultToResponse]

/-- C5, witness: a request that times out gets the 500/timeout response
and the next request on the same connection is served normally. -/
theorem C5_witness :
    utf8Decode (chars "X\r\n\r\n\x7b\"method\":\"Ping\"\x7d")
      = some (chars "X\r\n\r\n\x7b\"method\":\"Ping\"\x7d") ∧
    frame (chars "X\r\n\r\n\x7b\"method\":\"Ping\"\x7d")
      = some (chars "\x7b\"method\":\"Ping\"\x7d") ∧
    parse_request (chars "\x7b\"method\":\"Ping\"\x7d") = .ok ⟨chars "Ping", Json.null⟩ ∧
    (fun r : Request => decide (r.method = chars "Ping")) ⟨chars "Ping", Json.null⟩ = true ∧
    handle_connection
        (servedHandler (fun r => decide (r.method = chars "Ping")) (fun _ => .ok []))
        [chars "X\r\n\r\n\x7b\"method\":\"Ping\"\x7d", chars "Y\r\n\r\n\x7b\"method\":\"Pong\"\x7d"]
      = ([⟨chars "500 Internal Server Error", timeoutMsg⟩,
          ⟨chars "200 OK", jsonEncString (jsonEncString [])⟩], Except.ok ()) := by
  refine ⟨rfl, rfl, rfl, rfl, ?_⟩
  have h := C5_timeout_response (fun r => decide (r.method = chars "Ping")) (fun _ => .ok [])
    (chars "X\r\n\r\n\x7b\"method\":\"Ping\"\x7d") (chars "X\r\n\r\n\x7b\"method\":\"Ping\"\x7d")
    (chars "\x7b\"method\":\"Ping\"\x7d") ⟨chars "Ping", Json.null⟩
    [chars "Y\r\n\r\n\x7b\"method\":\"Pong\"\x7d"] rfl rfl rfl rfl
  exact h.trans rfl

/-- C6: every response the connection loop writes (with the program's
handler `handle_with_timeout`) serializes exactly as the status line,
the content-type header, a `Content-Length` equal to the byte length of
the body, a blank line, and the body, and its status is one of exactly
the three literals `200 OK`, `400 Bad Request`, `500 Internal Server
Error`; moreover a chunk that frames and decodes contributes exactly one
response. -/
theorem C6_response_format (tmo : Request → Bool)
    (router : Request → Except (List Nat) (List Nat)) (chunks : List (List Nat)) :
    (∀ r, r ∈ (handle_connection (servedHandler tmo router) chunks).1 →
      response r
        = chars "HTTP/1.1 " ++ r.status ++ chars "\r\n"
            ++ chars "Content-Type: application/json\r\n"
            ++ chars "Content-Length: " ++ chars (Nat.repr (byteLength r.body))
            ++ chars "\r\n\r\n" ++ r.body
      ∧ (r.status = chars "200 OK" ∨ r.status = chars "400 Bad Request" ∨
         r.status = chars "500 Internal Server Error")) ∧
    (∀ chunk rest text body req,
      utf8Decode chunk = some text → frame text = some body →
      parse_request body = .ok req →
      (handle_connection (servedHandler tmo router) (chunk :: rest)).1
        = servedHandler tmo router req
            :: (handle_connection (servedHandler tmo router) rest).1) := by
  constructor
  · intro r hr
    constructor
    · simp [response, List.append_assoc]
    · exact handle_connection_statuses (servedHandler tmo router)
        (fun req => resultToResponse_status (handle_with_timeout tmo router req)) chunks r hr
  · intro chunk rest text body req h1 h2 h3
    rw [handle_connection_parse_ok (servedHandler tmo router) chunk rest text body req h1 h2 h3]

set_option maxRecDepth 8000 in
/-- C6, witness: the format and three-statuses facts at the concrete 400
response produced for a separator-free chunk, and the exactly-one-response
fact at a concrete well-formed request. -/
theorem C6_witness :
    (response status.BAD_REQUEST
       = chars "HTTP/1.1 " ++ status.BAD_REQUEST.status ++ chars "\r\n"
           ++ chars "Content-Type: application/json\r\n"
           ++ chars "Content-Length: "
           ++ chars (Nat.repr (byteLength status.BAD_REQUEST.body))
           ++ chars "\r\n\r\n" ++ status.BAD_REQUEST.body
     ∧ (status.BAD_REQUEST.status = chars "200 OK" ∨
        status.BAD_REQUEST.status = chars "400 Bad Request" ∨
        status.BAD_REQUEST.status = chars "500 Internal Server Error")) ∧
    (handle_connection (servedHandler (fun _ => false) (fun _ => .ok []))
        [chars "X\r\n\r\n\x7b\"method\":\"Ping\"\x7d"]).1
      = servedHandler (fun _ => false) (fun _ => .ok []) ⟨chars "Ping", Json.null⟩ :: [] := by
  constructor
  · exact (C6_response_format (fun _ => false) (fun _ => .ok []) [chars "hello"]).1
      status.BAD_REQUEST (by decide)
  · exact (C6_response_format (fun _ => false) (fun _ => .ok []) []).2
      (chars "X\r\n\r\n\x7b\"method\":\"Ping\"\x7d") [] (chars "X\r\n\r\n\x7b\"method\":\"Ping\"\x7d")
      (chars "\x7b\"method\":\"Ping\"\x7d") ⟨chars "Ping", Json.null⟩ rfl rfl rfl

/-- C7: under `impl IntoResponse for Result<T, E>`, a success whose
payload serializes to `s` encodes to `200 OK` with body `s`, and a
failure with message `m` encodes to `500 Internal Server Error` with
body exactly `m` — the raw message string. -/
theorem C7_result_encoding {α ε : Type} (ser : α → Option (List Nat)) (msg : ε → List Nat)
    (v : α) (s : List Nat) (e : ε) (h : ser v = some s) :
    intoResponseResult ser msg (Except.ok v) = some ⟨chars "200 OK", s⟩ ∧
    intoResponseResult ser msg (Except.error e)
      = some ⟨chars "500 Internal Server Error", msg e⟩ := by
  constructor
  · simp [intoResponseResult, h]
  · rfl

/-- C7, witness: a failure with message `"not found"` yields the 500
response whose body is exactly `not found`. -/
theorem C7_witness :
    (fun _ : Unit => some (chars "1")) () = some (chars "1") ∧
    (intoResponseResult (fun _ : Unit => some (chars "1")) (fun _ : Unit => chars "not found")
        (Except.ok ()) = some ⟨chars "200 OK", chars "1"⟩ ∧
     intoResponseResult (fun _ : Unit => some (chars "1")) (fun _ : Unit => chars "not found")
        (Except.error ()) = some ⟨chars "500 Internal Server Error", chars "not found"⟩) :=
  ⟨rfl, C7_result_encoding (fun _ : Unit => some (chars "1"))
    (fun _ : Unit => chars "not found") () (chars "1") () rfl⟩

/-- C8, counterexample: `parse_request` accepts the payload
`{"method":""}` and yields a request whose `method` is the empty string,
refuting the claim that a parsed `method` is always non-empty. -/
theorem C8_counterexample :
    parse_request (chars "\x7b\"method\":\"\"\x7d") = Except.ok ⟨[], Json.null⟩ := rfl

/-- C8, amended: every accepted payload carries a `"method"` entry whose
string value becomes the request's `method` (parsing fails whenever
`"method"` is absent), and `data` is JSON null whenever the payload has
no `"data"` entry — but `method` may be the empty string. -/
theorem C8_method_required_data_defaults (s : List Nat) (r : Request)
    (kvs : List (List Nat × Json)) :
    (parse_request s = .ok r → ∃ j, parseJsonTop s = .ok j ∧ requestFromJson j = .ok r) ∧
    (requestFromJson (Json.obj kvs) = .ok r → (chars "method", Json.str r.method) ∈ kvs) ∧
    (requestFromJson (Json.obj kvs) = .ok r → (∀ v, (chars "data", v) ∉ kvs) →
      r.data = Json.null) ∧
    ((∀ v, (chars "method", v) ∉ kvs) → ∃ msg, requestFromJson (Json.obj kvs) = .error msg) := by
  refine ⟨?_, ?_, ?_, ?_⟩
  · intro h
    rw [parse_request] at h
    split at h
    · exact absurd h (by simp)
    · rename_i j h1
      split at h
      · exact absurd h (by simp)
      · rename_i r' h2
        injection h with h
        exact ⟨j, h1, h ▸ h2⟩
  · intro h
    exact reqGo_method_mem kvs none r h
  · intro h hnd
    exact reqGo_data_default kvs none r h hnd
  · intro hnm
    exact reqGo_missing_method kvs none hnm

/-- C8, witness: the amended theorem at the payload `{"method":"Ping"}`
(for acceptance, membership and the data default) and at the entry list
without a `"method"` key (for the failure case). -/
theorem C8_witness :
    (∃ j, parseJsonTop (chars "\x7b\"method\":\"Ping\"\x7d") = .ok j ∧
      requestFromJson j = .ok ⟨chars "Ping", Json.null⟩) ∧
    (chars "method", Json.str (chars "Ping"))
      ∈ [(chars "method", Json.str (chars "Ping"))] ∧
    (Request.mk (chars "Ping") Json.null).data = Json.null ∧
    (∃ msg, requestFromJson (Json.obj []) = .error msg) := by
  refine ⟨?_, ?_, ?_, ?_⟩
  · exact (C8_method_required_data_defaults (chars "\x7b\"method\":\"Ping\"\x7d")
      ⟨chars "Ping", Json.null⟩ []).1 rfl
  · exact (C8_method_required_data_defaults (chars "\x7b\"method\":\"Ping\"\x7d")
      ⟨chars "Ping", Json.null⟩ [(chars "method", Json.str (chars "Ping"))]).2.1 rfl
  · exact (C8_method_required_data_defaults (chars "\x7b\"method\":\"Ping\"\x7d")
      ⟨chars "Ping", Json.null⟩ [(chars "method", Json.str (chars "Ping"))]).2.2.1 rfl
      (fun v hv => by simp [chars] at hv)
  · exact (C8_method_required_data_defaults (chars "\x7b\"method\":\"Ping\"\x7d")
      ⟨chars "Ping", Json.null⟩ []).2.2.2 (fun v hv => by simp at hv)

/-- C10: every chunk the read loop consumes has at most `readBufSize`
(1024) bytes — the fixed buffer caps each read — so a message longer
than 1024 bytes can never appear as a single chunk. -/
theorem C10_read_bounded (pending : List Nat) (ks : List Nat) (c : List Nat)
    (hc : c ∈ chunksFrom pending ks) :
    c.length ≤ readBufSize ∧ ∀ msg : List Nat, readBufSize < msg.length → c ≠ msg := by
  have hlen : c.length ≤ readBufSize := by
    induction ks generalizing pending with
    | nil => simp [chunksFrom] at hc
    | cons k ks ih =>
      rw [chunksFrom] at hc
      rcases List.mem_cons.mp hc with h | h
      · subst h
        simp only [List.length_take, readBufSize]
        omega
      · exact ih _ h
  refine ⟨hlen, fun msg hmsg hc2 => ?_⟩
  rw [hc2] at hlen
  omega

/-- C10, witness: a concrete chunk obeys the bound and differs from a
1025-byte message. -/
theorem C10_witness :
    chars "hi" ∈ chunksFrom (chars "hi") [5] ∧
    ((chars "hi").length ≤ readBufSize ∧ chars "hi" ≠ List.replicate 1025 0) := by
  have hm : chars "hi" ∈ chunksFrom (chars "hi") [5] := by decide
  have h := C10_read_bounded (chars "hi") [5] (chars "hi") hm
  exact ⟨hm, h.1, h.2 (List.replicate 1025 0) (by rw [List.length_replicate]; decide)⟩
